import Mathlib

/-!
Verification development for the `aws-sso-lib-go` repository.

The definitions below are a shallow embedding of the Go sources under
`awsssolib/` (`cache.go`, `sso.go`, `types.go`).  Machine integers are
modelled as `Int`/`Nat`, Go `time.Time` as an instant (seconds since the
Unix epoch) together with its zone offset, byte slices as `List Nat`,
and the filesystem / network side effects as explicit oracle arguments.
JSON marshalling of a struct followed by unmarshalling of the same
struct is modelled as the identity on the record (Go's `encoding/json`
round-trips every field of the structs used here losslessly at this
granularity), so a cache file's content is modelled by the record that
was serialized into it.
-/

namespace AwsSsoLib

/-- Model of Go `time.Time` at seconds precision: `sec` is the absolute
instant (seconds since the Unix epoch) and `offset` is the zone offset
of the time's location, in seconds, so the wall-clock reading is
`sec + offset`.  Go's `Format` renders wall-clock fields; comparisons
(`Before`/`After`) compare instants. -/
structure GoTime where
  sec : Int
  offset : Int
deriving DecidableEq, Repr

/-- Model of Go `Time.Add`: shifts the instant, keeps the location. -/
def GoTime.add (t : GoTime) (d : Int) : GoTime :=
  { sec := t.sec + d, offset := t.offset }

/-- Civil date from days since the Unix epoch (proleptic Gregorian),
the standard era-based algorithm used by time libraries; all divisions
are floor divisions (Lean's `Int` `/` with a positive divisor). -/
def civilFromDays (z : Int) : Int × Int × Int :=
  let z' := z + 719468
  let era := z' / 146097
  let doe := z' % 146097
  let yoe := (doe - doe / 1460 + doe / 36524 - doe / 146096) / 365
  let y := yoe + era * 400
  let doy := doe - (365 * yoe + yoe / 4 - yoe / 100)
  let mp := (5 * doy + 2) / 153
  let d := doy - (153 * mp + 2) / 5 + 1
  let m := mp + (if mp < 10 then 3 else -9)
  (y + (if m ≤ 2 then 1 else 0), m, d)

/-- Days since the Unix epoch from a civil date, inverse direction of
`civilFromDays`. -/
def daysFromCivil (y m d : Int) : Int :=
  let y' := y - (if m ≤ 2 then 1 else 0)
  let era := y' / 400
  let yoe := y' - era * 400
  let mp := (m + 9) % 12
  let doy := (153 * mp + 2) / 5 + d - 1
  let doe := yoe * 365 + yoe / 4 - yoe / 100 + doy
  era * 146097 + doe - 719468

/-- Two-digit zero-padded decimal rendering. -/
def pad2 (n : Nat) : String :=
  String.mk [Nat.digitChar (n / 10 % 10), Nat.digitChar (n % 10)]

/-- Four-digit zero-padded decimal rendering. -/
def pad4 (n : Nat) : String :=
  String.mk [Nat.digitChar (n / 1000 % 10), Nat.digitChar (n / 100 % 10),
             Nat.digitChar (n / 10 % 10), Nat.digitChar (n % 10)]

/-- Model of Go `t.Format("2006-01-02T15:04:05Z")`.  In this layout the
trailing `Z` is a literal character (Go only treats `Z` as a zone
marker when followed by `07`), so Go renders the WALL-CLOCK fields of
`t` in t's own location and appends a literal `Z` — it does not convert
to UTC. -/
def formatTimestampZ (t : GoTime) : String :=
  let wall := t.sec + t.offset
  let days := wall / 86400
  let sod := (wall % 86400).toNat
  let ymd := civilFromDays days
  pad4 ymd.1.toNat ++ "-" ++ pad2 ymd.2.1.toNat ++ "-" ++ pad2 ymd.2.2.toNat ++ "T" ++
    pad2 (sod / 3600) ++ ":" ++ pad2 (sod % 3600 / 60) ++ ":" ++ pad2 (sod % 60) ++ "Z"

/-- Numeric value of a decimal digit character. -/
def digitVal (c : Char) : Option Nat :=
  if c.isDigit then some (c.toNat - 48) else none

/-- Parse two decimal digit characters. -/
def parse2 (a b : Char) : Option Nat := do
  let x ← digitVal a
  let y ← digitVal b
  pure (10 * x + y)

/-- Parse four decimal digit characters. -/
def parse4 (a b c d : Char) : Option Nat := do
  let x ← parse2 a b
  let y ← parse2 c d
  pure (100 * x + y)

/-- Model of Go `time.Parse("2006-01-02T15:04:05Z", s)`: the layout
carries no zone information (the `Z` is a literal), so the parsed
fields are interpreted in UTC (offset 0). -/
def parseTimestampZ (s : String) : Option GoTime :=
  match s.data with
  | [y1, y2, y3, y4, a1, mo1, mo2, a2, d1, d2, a3, h1, h2, a4, mi1, mi2, a5, e1, e2, a6] =>
    if a1 = '-' ∧ a2 = '-' ∧ a3 = 'T' ∧ a4 = ':' ∧ a5 = ':' ∧ a6 = 'Z' then
      match parse4 y1 y2 y3 y4, parse2 mo1 mo2, parse2 d1 d2,
            parse2 h1 h2, parse2 mi1 mi2, parse2 e1 e2 with
      | some y, some mo, some d, some h, some mi, some se =>
        if 1 ≤ mo ∧ mo ≤ 12 ∧ 1 ≤ d ∧ d ≤ 31 ∧ h < 24 ∧ mi < 60 ∧ se < 60 then
          some { sec := daysFromCivil y mo d * 86400 + (h * 3600 + mi * 60 + se : Nat),
                 offset := 0 }
        else none
      | _, _, _, _, _, _ => none
    else none
  | _ => none

/-- Model of `Token` from `types.go`. -/
structure Token where
  AccessToken : String
  ExpiresAt : GoTime
  RefreshToken : String
  ClientID : String
  ClientSecret : String
  RegistrationTime : GoTime
  Region : String
  StartURL : String
deriving DecidableEq, Repr

/-- Model of the `AWSCLIToken` struct from `cache.go` (the
external-compatible on-disk JSON schema); optional (`omitempty`) string
fields are modelled with `""` for "absent". -/
structure AWSCLIToken where
  StartURL : String
  Region : String
  AccessToken : String
  ExpiresAt : String
  ReceivedAt : String
  ClientID : String
  ClientSecret : String
  RegistrationExpiresAt : String
deriving DecidableEq, Repr

/-- Model of `PutCachedToken` from `cache.go`: the written cache-file
content for start URL `startURL`, produced at wall-clock time `now`
(the result of `time.Now()`, carrying the process's local zone
offset).  The filesystem write itself (directory creation, file
permissions) is outside this pure model; the function returns the
`AWSCLIToken` record whose JSON is written. -/
def PutCachedToken (now : GoTime) (startURL : String) (token : Token) : AWSCLIToken :=
  { StartURL := startURL
    Region := token.Region
    AccessToken := token.AccessToken
    ExpiresAt := formatTimestampZ token.ExpiresAt
    ReceivedAt := formatTimestampZ now
    ClientID := token.ClientID
    ClientSecret := token.ClientSecret
    RegistrationExpiresAt :=
      if token.ClientID ≠ "" ∧ token.ClientSecret ≠ "" then
        formatTimestampZ (now.add (90 * 24 * 3600))
      else "" }

/-- Model of `GetCachedToken` from `cache.go`, external-compatible
path: `file` is the cache file's content for the start URL (`none` =
file does not exist, i.e. miss), `now` the current instant.  The
RFC3339 fallback parse and the native-schema fallback are not modelled:
every file this model reads was produced through `PutCachedToken`,
whose timestamps are always in the primary layout. -/
def GetCachedToken (now : GoTime) (file : Option AWSCLIToken) : Except String (Option Token) :=
  match file with
  | none => .ok none
  | some awsToken =>
    match parseTimestampZ awsToken.ExpiresAt with
    | none => .error "failed to parse token expiry"
    | some expiresAt =>
      if now.sec > expiresAt.sec - 5 * 60 then
        .ok none
      else
        .ok (some
          { AccessToken := awsToken.AccessToken
            ExpiresAt := expiresAt
            RefreshToken := ""
            ClientID := awsToken.ClientID
            ClientSecret := awsToken.ClientSecret
            RegistrationTime :=
              match parseTimestampZ awsToken.ReceivedAt with
              | some t => t
              | none => { sec := 0, offset := 0 }
            Region := awsToken.Region
            StartURL := awsToken.StartURL })

/-- Model of `CachedCredentials` from `cache.go`. -/
structure CachedCredentials where
  AccessKeyID : String
  SecretAccessKey : String
  SessionToken : String
  Expiration : GoTime
deriving DecidableEq, Repr

/-- Model of `MemoryCache` from `cache.go`, specialised to credential
entries (the stored bytes are the JSON of a `CachedCredentials`, which
round-trips losslessly): an association list where the most recent
`Put` for a key shadows older ones, like a Go map write. -/
def MemoryCache := List (String × CachedCredentials)

/-- Model of `MemoryCache.Get`: first (most recent) binding wins. -/
def MemoryCache.get (c : MemoryCache) (k : String) : Option CachedCredentials :=
  (List.find? (fun p => p.1 == k) c).map (fun p => p.2)

/-- Model of `MemoryCache.Put`. -/
def MemoryCache.put (c : MemoryCache) (k : String) (v : CachedCredentials) : MemoryCache :=
  (k, v) :: c

/-- Reading a key immediately after writing it yields the written
entry (the fresh binding shadows any older one). -/
theorem MemoryCache.get_put (c : MemoryCache) (k : String) (v : CachedCredentials) :
    MemoryCache.get (MemoryCache.put c k v) k = some v := by
  unfold MemoryCache.get MemoryCache.put
  rw [List.find?_cons_of_pos _ (by simp)]
  rfl

/-- Model of `generateCredentialCacheKey` from `cache.go`. -/
def generateCredentialCacheKey (startURL accountID roleName : String) : String :=
  "aws-sso-creds-" ++ startURL ++ "-" ++ accountID ++ "-" ++ roleName

/-- Model of `GetCachedCredentials` from `cache.go`: `cache = none`
models a nil `Cache`, for which the Go code constructs a fresh empty
`MemoryCache` local to the call. -/
def GetCachedCredentials (now : GoTime) (cache : Option MemoryCache) (cacheKey : String) :
    Option CachedCredentials :=
  let c := cache.getD []
  match c.get cacheKey with
  | none => none
  | some creds =>
    if now.sec > creds.Expiration.sec then none else some creds

/-- Model of `PutCachedCredentials` from `cache.go`: returns the store
as the caller sees it afterwards.  For a nil cache (`none`) the Go code
allocates a fresh `MemoryCache`, writes into it and discards it — the
caller's store stays nil — yet the call succeeds. -/
def PutCachedCredentials (cache : Option MemoryCache) (cacheKey : String)
    (creds : CachedCredentials) : Except String (Option MemoryCache) :=
  match cache with
  | none => .ok none
  | some c => .ok (some (c.put cacheKey creds))

/-! SHA-1, the fixed 160-bit hash Go's `crypto/sha1` computes; used by
`GetSSOCacheFilePath` in `cache.go` to name the token cache file.
Words are `Nat` values reduced `% 2^32`, bytes are `Nat` values below
256. -/

/-- Left rotation of a 32-bit word. -/
def rotl (n x : Nat) : Nat :=
  ((x <<< n) % 4294967296) ||| (x >>> (32 - n))

/-- Bitwise complement of a 32-bit word (argument below `2^32`). -/
def bnot32 (x : Nat) : Nat := 4294967295 - x

/-- Merkle–Damgård padding: a `0x80` byte, zeros to 56 mod 64, then
the bit length as 8 big-endian bytes. -/
def sha1Pad (msg : List Nat) : List Nat :=
  let l := msg.length
  let zeros := (64 + 55 - l % 64) % 64
  let bits := 8 * l
  msg ++ 128 :: List.replicate zeros 0 ++
    [(bits >>> 56) % 256, (bits >>> 48) % 256, (bits >>> 40) % 256, (bits >>> 32) % 256,
     (bits >>> 24) % 256, (bits >>> 16) % 256, (bits >>> 8) % 256, bits % 256]

/-- Big-endian bytes to 32-bit words. -/
def bytesToWords : List Nat → List Nat
  | b0 :: b1 :: b2 :: b3 :: rest =>
      (((b0 * 256 + b1) * 256 + b2) * 256 + b3) :: bytesToWords rest
  | _ => []

/-- Message-schedule expansion: emits `n` further words from a sliding
window of the last 16. -/
def sha1Extend : Nat → List Nat → List Nat
  | 0, _ => []
  | n + 1, ws =>
    match ws with
    | [a0, a1, a2, a3, a4, a5, a6, a7, a8, a9, a10, a11, a12, a13, a14, a15] =>
      let w := rotl 1 (a13 ^^^ a8 ^^^ a2 ^^^ a0)
      w :: sha1Extend n [a1, a2, a3, a4, a5, a6, a7, a8, a9, a10, a11, a12, a13, a14, a15, w]
    | _ => []

/-- Working state of one SHA-1 compression. -/
structure Sha1State where
  a : Nat
  b : Nat
  c : Nat
  d : Nat
  e : Nat
deriving DecidableEq, Repr

/-- Round function, selected by round index. -/
def sha1F (i b c d : Nat) : Nat :=
  if i < 20 then (b &&& c) ||| (bnot32 b &&& d)
  else if i < 40 then b ^^^ c ^^^ d
  else if i < 60 then (b &&& c) ||| (b &&& d) ||| (c &&& d)
  else b ^^^ c ^^^ d

/-- Round constant, selected by round index. -/
def sha1K (i : Nat) : Nat :=
  if i < 20 then 1518500249
  else if i < 40 then 1859775393
  else if i < 60 then 2400959708
  else 3395469782

/-- The 80 compression rounds, one per schedule word. -/
def sha1Rounds (i : Nat) (st : Sha1State) : List Nat → Sha1State
  | [] => st
  | w :: ws =>
    let temp := (rotl 5 st.a + sha1F i st.b st.c st.d + st.e + sha1K i + w) % 4294967296
    sha1Rounds (i + 1) { a := temp, b := st.a, c := rotl 30 st.b, d := st.c, e := st.d } ws

/-- Compress one 64-byte block into the chaining state. -/
def sha1Block (h : Sha1State) (block : List Nat) : Sha1State :=
  let ws0 := bytesToWords block
  let st := sha1Rounds 0 h (ws0 ++ sha1Extend 64 ws0)
  { a := (h.a + st.a) % 4294967296
    b := (h.b + st.b) % 4294967296
    c := (h.c + st.c) % 4294967296
    d := (h.d + st.d) % 4294967296
    e := (h.e + st.e) % 4294967296 }

/-- Iterate the compression over 64-byte blocks (`fuel` bounds the
recursion; the padded length is the bound used below). -/
def sha1Blocks (fuel : Nat) (h : Sha1State) (bytes : List Nat) : Sha1State :=
  match fuel, bytes with
  | _, [] => h
  | 0, _ => h
  | fuel + 1, bytes =>
    let p := bytes.splitAt 64
    sha1Blocks fuel (sha1Block h p.1) p.2

/-- SHA-1 initialization vector. -/
def sha1Init : Sha1State :=
  { a := 1732584193, b := 4023233417, c := 2562383102, d := 271733878, e := 3285377520 }

/-- Big-endian bytes of a 32-bit word. -/
def wordBytes (w : Nat) : List Nat :=
  [(w >>> 24) % 256, (w >>> 16) % 256, (w >>> 8) % 256, w % 256]

/-- SHA-1 digest (20 bytes) of a byte string, `sha1.Sum` in Go. -/
def sha1Bytes (msg : List Nat) : List Nat :=
  let padded := sha1Pad msg
  let h := sha1Blocks padded.length sha1Init padded
  wordBytes h.a ++ wordBytes h.b ++ wordBytes h.c ++ wordBytes h.d ++ wordBytes h.e

/-- Two lowercase hex digits of a byte, as printed by Go's `%x`. -/
def byteHex (b : Nat) : List Char := [Nat.digitChar (b / 16 % 16), Nat.digitChar (b % 16)]

/-- Lowercase-hex SHA-1 digest of a byte string. -/
def sha1Hex (msg : List Nat) : String :=
  String.mk (List.flatten ((sha1Bytes msg).map byteHex))

/-- UTF-8 bytes of an ASCII string (start URLs are ASCII; for code
points below 128 the UTF-8 encoding is the code point itself). -/
def asciiBytes (s : String) : List Nat := s.data.map Char.toNat

/-- Model of `GetSSOCacheFilePath` from `cache.go`: `filepath.Join` of
the home directory, the fixed subdirectory `.aws/sso/cache`, and the
lowercase-hex SHA-1 of the start URL with extension `.json`.  The
function takes no cache argument in the source; the path never depends
on the store implementation passed to the token cache helpers. -/
def GetSSOCacheFilePath (homeDir startURL : String) : String :=
  homeDir ++ "/.aws/sso/cache/" ++ sha1Hex (asciiBytes startURL) ++ ".json"

/-- Model of `LoginOutput` from `types.go` (field names lowercased:
a field spelled `Token` would collide with the `Token` type). -/
structure LoginOutput where
  token : Token
  expiresAt : GoTime
deriving DecidableEq, Repr

/-- Model of `Login` from `sso.go` (lines 109–164), after input
validation.  The effectful collaborators are passed as oracles:
`cachedToken` is the result of `GetCachedToken`, `deviceAuth` the
result of `performDeviceAuthorization`, `putResult` the result of
`PutCachedToken`.  A cache read error is logged and control falls
through to the device flow, exactly like a miss; a cache write error is
logged and the fresh token is returned anyway. -/
def Login (forceRefresh : Bool) (expiryWindow : Int) (now : GoTime)
    (cachedToken : Except String (Option Token))
    (deviceAuth : Except String Token)
    (putResult : Except String Unit) : Except String LoginOutput :=
  let cachedHit : Option Token :=
    if forceRefresh then none
    else
      match cachedToken with
      | .error _ => none
      | .ok none => none
      | .ok (some token) =>
        let w := if expiryWindow = 0 then 5 * 60 else expiryWindow
        if now.sec + w < token.ExpiresAt.sec then some token else none
  match cachedHit with
  | some token => .ok { token := token, expiresAt := token.ExpiresAt }
  | none =>
    match deviceAuth with
    | .error e => .error e
    | .ok token =>
      match putResult with
      | .error _ => .ok { token := token, expiresAt := token.ExpiresAt }
      | .ok _ => .ok { token := token, expiresAt := token.ExpiresAt }

/-- Error conditions surfaced by `ssoCredentialProvider.Retrieve` and
`getTokenForOperation` in `sso.go`; `authenticationNeeded` models the
distinct `&AuthenticationNeededError{}` value both return. -/
inductive SSOError where
  | authenticationNeeded
  | loadConfigFailed (e : String)
  | getRoleCredentialsFailed (e : String)
  | loginFailed (e : String)
deriving DecidableEq, Repr

/-- Provider calls `Retrieve` can make, recorded as a trace so that
"no implicit login is performed" is a statement of the model. -/
inductive RetrieveAction where
  | getCachedCredentials
  | getCachedToken
  | getRoleCredentials
  | putCachedCredentials
  | login
deriving DecidableEq, Repr

/-- Model of `aws.Credentials` as built by `Retrieve`. -/
structure AWSCredentials where
  AccessKeyID : String
  SecretAccessKey : String
  SessionToken : String
  CanExpire : Bool
  Expires : GoTime
  Source : String
deriving DecidableEq, Repr

/-- Model of `ssoCredentialProvider.Retrieve` from `sso.go` (lines
484–590).  `credCacheEnabled` is `p.credentialCache != nil`; the
oracles are the results of the credential-cache read, the token-cache
read, `config.LoadDefaultConfig`, `GetRoleCredentials` (already decoded
to a `CachedCredentials`), and the credential-cache write.  The second
component records which collaborators ran. -/
def Retrieve (credCacheEnabled : Bool)
    (cachedCreds : Except String (Option CachedCredentials))
    (cachedToken : Except String (Option Token))
    (loadConfig : Except String Unit)
    (roleCreds : Except String CachedCredentials)
    (putResult : Except String Unit) :
    Except SSOError AWSCredentials × List RetrieveAction :=
  let checkCache : Option CachedCredentials × List RetrieveAction :=
    if credCacheEnabled then
      match cachedCreds with
      | .ok (some cached) => (some cached, [.getCachedCredentials])
      | _ => (none, [.getCachedCredentials])
    else (none, [])
  match checkCache with
  | (some cached, acts) =>
    (.ok { AccessKeyID := cached.AccessKeyID, SecretAccessKey := cached.SecretAccessKey,
           SessionToken := cached.SessionToken, CanExpire := true,
           Expires := cached.Expiration, Source := "SSO" }, acts)
  | (none, acts) =>
    match cachedToken with
    | .error _ => (.error .authenticationNeeded, acts ++ [.getCachedToken])
    | .ok none => (.error .authenticationNeeded, acts ++ [.getCachedToken])
    | .ok (some _token) =>
      match loadConfig with
      | .error e => (.error (.loadConfigFailed e), acts ++ [.getCachedToken])
      | .ok _ =>
        match roleCreds with
        | .error e =>
          (.error (.getRoleCredentialsFailed e),
           acts ++ [.getCachedToken, .getRoleCredentials])
        | .ok creds =>
          let result : AWSCredentials :=
            { AccessKeyID := creds.AccessKeyID, SecretAccessKey := creds.SecretAccessKey,
              SessionToken := creds.SessionToken, CanExpire := true,
              Expires := creds.Expiration, Source := "SSO" }
          if credCacheEnabled then
            match putResult with
            | .error _ =>
              (.ok result, acts ++ [.getCachedToken, .getRoleCredentials, .putCachedCredentials])
            | .ok _ =>
              (.ok result, acts ++ [.getCachedToken, .getRoleCredentials, .putCachedCredentials])
          else (.ok result, acts ++ [.getCachedToken, .getRoleCredentials])

/-- Model of `getTokenForOperation` from `sso.go` (lines 437–459):
`login` is the caller's interactive-login flag, `cachedToken` the
token-cache read, `loginResult` the outcome `Login` would produce. -/
def getTokenForOperation (login : Bool)
    (cachedToken : Except String (Option Token))
    (loginResult : Except String LoginOutput) : Except SSOError Token :=
  match cachedToken with
  | .ok (some token) => .ok token
  | _ =>
    if login then
      match loginResult with
      | .error e => .error (.loginFailed e)
      | .ok out => .ok out.token
    else .error .authenticationNeeded

/-! Model of the polling phase of `performDeviceAuthorization`
(`sso.go` lines 368–433).  Time is measured in seconds from ticker
creation (ticker and the timeout context are created back-to-back
just before the loop).  `time.NewTicker(interval)` fires at
`interval, 2*interval, ...` into a one-slot channel, dropping a fire
when the slot is still full; `time.Sleep` does not stop the ticker, so
a tick that fires during a sleep is consumed immediately afterwards.
Provider calls are instantaneous in the model; their results come from
a `script` indexed by attempt number.  In a `select` where both the
done channel and a tick are ready the model takes the done branch. -/

/-- Fields of the `CreateToken` success response that the code
consumes. -/
structure TokenResponse where
  AccessToken : String
  RefreshToken : String
  ExpiresIn : Int
deriving DecidableEq, Repr

/-- Fields of the `RegisterClient` response echoed into the token. -/
structure RegisterResponse where
  ClientId : String
  ClientSecret : String
deriving DecidableEq, Repr

/-- Provider response to one `CreateToken` poll attempt. -/
inductive ProviderResponse where
  | pending
  | slowDown
  | success (resp : TokenResponse)
  | failure (e : String)
deriving DecidableEq, Repr

/-- Terminal outcome of the polling loop.  `timedOut` is the
`DeadlineExceeded` branch (the code returns a dedicated "authorization
timed out" error), `cancelled` the other `ctx.Err()` branch;
`fuelExhausted` marks insufficient model fuel and is never reached in
the theorems below. -/
inductive PollOutcome where
  | success (resp : TokenResponse)
  | failure (e : String)
  | timedOut
  | cancelled
  | fuelExhausted
deriving DecidableEq, Repr

/-- State of the ticker channel: whether a fired tick is waiting in
the one-slot buffer, and the time of the next future fire. -/
structure TickerState where
  queued : Bool
  nextFire : Int
deriving DecidableEq, Repr

/-- Time at which the combined done channel fires: the loop's timeout
context expires at `timeout`, and a caller cancellation at `cancelAt`
propagates into it. -/
def doneAt (timeout : Int) (cancelAt : Option Int) : Int :=
  match cancelAt with
  | none => timeout
  | some c => min timeout c

/-- Which branch the code takes once the done channel fired:
`DeadlineExceeded` (our timeout was first) gives the timed-out error,
an earlier caller cancellation gives the cancellation error. -/
def doneOutcome (timeout : Int) (cancelAt : Option Int) : PollOutcome :=
  match cancelAt with
  | none => .timedOut
  | some c => if c < timeout then .cancelled else .timedOut

/-- Advance the ticker across a sleep ending at time `t`: every fire
due by `t` happens, at most one stays queued (later ones are dropped),
and `nextFire` moves past `t`. -/
def advanceTicker (interval : Int) (ts : TickerState) (t : Int) : TickerState :=
  if ts.nextFire ≤ t then
    { queued := true, nextFire := ts.nextFire + ((t - ts.nextFire) / interval + 1) * interval }
  else ts

/-- One-to-one translation of the `for { select { ... } }` polling loop
of `performDeviceAuthorization`: returns the outcome, the time the loop
ends, and the times of the poll attempts made (`times` accumulates them
in reverse).  Each iteration either takes the done branch or consumes a
tick and polls; "authorization pending" just continues, "slow down"
sleeps one extra interval before continuing, any other error or a
success ends the loop. -/
def pollLoop (interval timeout : Int) (cancelAt : Option Int)
    (script : Nat → ProviderResponse) (fuel : Nat) (t : Int) (ts : TickerState)
    (attempt : Nat) (times : List Int) : PollOutcome × Int × List Int :=
  match fuel with
  | 0 => (.fuelExhausted, t, times.reverse)
  | fuel + 1 =>
    let dAt := doneAt timeout cancelAt
    let tickAt := cond ts.queued t ts.nextFire
    if dAt ≤ tickAt then
      (doneOutcome timeout cancelAt, dAt, times.reverse)
    else
      let ts' : TickerState :=
        { queued := false
          nextFire := cond ts.queued ts.nextFire (ts.nextFire + interval) }
      let times' := tickAt :: times
      match script attempt with
      | .success r => (.success r, tickAt, times'.reverse)
      | .failure e => (.failure e, tickAt, times'.reverse)
      | .pending =>
        pollLoop interval timeout cancelAt script fuel tickAt ts' (attempt + 1) times'
      | .slowDown =>
        pollLoop interval timeout cancelAt script fuel (tickAt + interval)
          (advanceTicker interval ts' (tickAt + interval)) (attempt + 1) times'

/-- Run the polling loop from its entry state: time 0, empty ticker
slot, first fire one interval ahead. -/
def performPoll (interval timeout : Int) (cancelAt : Option Int)
    (script : Nat → ProviderResponse) (fuel : Nat) : PollOutcome × Int × List Int :=
  pollLoop interval timeout cancelAt script fuel 0
    { queued := false, nextFire := interval } 0 []

/-- Model of the timeout computation of `performDeviceAuthorization`
(`sso.go` lines 373–380): 10 minutes (600 s) by default, replaced by
the caller's context deadline when that is sooner. -/
def effectiveTimeout (ctxDeadline : Option Int) : Int :=
  match ctxDeadline with
  | none => 600
  | some d => if d < 600 then d else 600

/-- Token object built on a successful poll (`sso.go` lines 420–429):
`succTime` is the loop time of the success, so the wall clock then is
`now0.add succTime` and the absolute expiry is that plus the
server-provided lifetime; client id/secret are echoed from
registration, region and start URL from the request. -/
def tokenFromResponse (now0 : GoTime) (succTime : Int) (reg : RegisterResponse)
    (ssoRegion startURL : String) (resp : TokenResponse) : Token :=
  { AccessToken := resp.AccessToken
    ExpiresAt := { sec := now0.sec + succTime + resp.ExpiresIn, offset := now0.offset }
    RefreshToken := resp.RefreshToken
    ClientID := reg.ClientId
    ClientSecret := reg.ClientSecret
    RegistrationTime := { sec := now0.sec + succTime, offset := now0.offset }
    Region := ssoRegion
    StartURL := startURL }

/-- Result of the device authorization polling phase at the level the
caller of `performDeviceAuthorization` sees it. -/
inductive DeviceAuthResult where
  | token (tok : Token)
  | providerRejected (e : String)
  | timedOut
  | cancelled
  | fuelExhausted
deriving DecidableEq, Repr

/-- Model of the polling phase of `performDeviceAuthorization`
end-to-end: compute the effective timeout from the caller's deadline,
run the loop, and on success build the identity token. -/
def performDeviceAuthorization (now0 : GoTime) (reg : RegisterResponse)
    (ssoRegion startURL : String) (interval : Int) (ctxDeadline : Option Int)
    (cancelAt : Option Int) (script : Nat → ProviderResponse) (fuel : Nat) :
    DeviceAuthResult × Int × List Int :=
  let timeout := effectiveTimeout ctxDeadline
  match performPoll interval timeout cancelAt script fuel with
  | (.success r, t, ts) => (.token (tokenFromResponse now0 t reg ssoRegion startURL r), t, ts)
  | (.failure e, t, ts) => (.providerRejected e, t, ts)
  | (.timedOut, t, ts) => (.timedOut, t, ts)
  | (.cancelled, t, ts) => (.cancelled, t, ts)
  | (.fuelExhausted, t, ts) => (.fuelExhausted, t, ts)

/-- Provider stub: `n` "authorization pending" responses, then
success. -/
def pendingThenSuccess (n : Nat) (r : TokenResponse) : Nat → ProviderResponse :=
  fun k => if k < n then .pending else .success r

/-- Provider stub: one "slow down" response, then success. -/
def slowDownThenSuccess (r : TokenResponse) : Nat → ProviderResponse :=
  fun k => if k = 0 then .slowDown else .success r

/-- Provider stub that never resolves. -/
def alwaysPending : Nat → ProviderResponse := fun _ => .pending

/-- Helper: prepending the first attempt time to attempt times that
start one interval later is the same as extending the range of attempt
times by one. -/
theorem pollTimes_shift (nf interval : Int) :
    ∀ m : Nat,
      nf :: (List.range m).map (fun k : Nat => nf + interval + (k : Int) * interval)
        = (List.range (m + 1)).map (fun k : Nat => nf + (k : Int) * interval) := by
  intro m
  induction m with
  | zero => simp [List.range_succ]
  | succ m ih =>
    rw [List.range_succ, List.map_append, List.range_succ (n := m + 1), List.map_append,
      ← List.cons_append, ih]
    congr 1
    simp only [List.map_cons, List.map_nil]
    congr 1
    push_cast
    ring

/-- Helper: a run of `n` "authorization pending" responses followed by
a success, started from an empty ticker slot with the next fire at
`nf`, polls at `nf, nf + interval, ...` and succeeds on attempt
`n + 1` at time `nf + n * interval`, provided the timeout lies beyond
that time. -/
theorem pollLoop_pending_then_success (interval timeout : Int) (r : TokenResponse)
    (hi : 0 < interval) :
    ∀ (n fuel att : Nat) (t nf : Int) (times : List Int) (script : Nat → ProviderResponse),
      n < fuel →
      (∀ k, k < n → script (att + k) = .pending) →
      script (att + n) = .success r →
      nf + n * interval < timeout →
      pollLoop interval timeout none script fuel t { queued := false, nextFire := nf } att times
        = (.success r, nf + n * interval,
           times.reverse ++ (List.range (n + 1)).map (fun k : Nat => nf + (k : Int) * interval)) := by
  intro n
  induction n with
  | zero =>
    intro fuel att t nf times script hfuel hp hs htmo
    obtain ⟨m, rfl⟩ : ∃ m, fuel = m + 1 := ⟨fuel - 1, by omega⟩
    rw [pollLoop]
    simp only [doneAt, Bool.cond_false]
    push_cast at htmo
    rw [if_neg (by simpa using by linarith)]
    simp only [Nat.add_zero] at hs
    rw [hs]
    simp [List.reverse_cons, List.range_succ]
  | succ n ih =>
    intro fuel att t nf times script hfuel hp hs htmo
    obtain ⟨m, rfl⟩ : ∃ m, fuel = m + 1 := ⟨fuel - 1, by omega⟩
    have hnn : (0 : Int) ≤ (n + 1 : Nat) * interval :=
      mul_nonneg (by positivity) hi.le
    rw [pollLoop]
    simp only [doneAt, Bool.cond_false]
    rw [if_neg (by simp only [not_le]; linarith)]
    have hp0 : script att = .pending := by simpa using hp 0 (Nat.succ_pos n)
    simp only [hp0]
    rw [ih m (att + 1) nf (nf + interval) (nf :: times) script (by omega)
        (fun k hk => by
          rw [show att + 1 + k = att + (k + 1) by omega]
          exact hp (k + 1) (by omega))
        (by rw [show att + 1 + n = att + (n + 1) by omega]; exact hs)
        (by push_cast at htmo ⊢; linarith)]
    simp only [Prod.mk.injEq, true_and]
    constructor
    · push_cast
      ring
    · rw [List.reverse_cons, List.append_assoc]
      congr 1
      rw [List.singleton_append, pollTimes_shift]

/-- Helper: with a provider that always answers "authorization
pending", the loop ends at the done-channel fire time with the done
outcome, given fuel for the ticks until then. -/
theorem pollLoop_all_pending_done (interval timeout : Int) (cancelAt : Option Int)
    (script : Nat → ProviderResponse) (hscript : ∀ k, script k = .pending)
    (hi : 0 < interval) :
    ∀ (fuel : Nat) (t nf : Int) (att : Nat) (times : List Int),
      doneAt timeout cancelAt ≤ nf + fuel * interval →
      ∃ ts, pollLoop interval timeout cancelAt script (fuel + 1) t
          { queued := false, nextFire := nf } att times
        = (doneOutcome timeout cancelAt, doneAt timeout cancelAt, ts) := by
  intro fuel
  induction fuel with
  | zero =>
    intro t nf att times h
    refine ⟨times.reverse, ?_⟩
    rw [pollLoop]
    simp only [Bool.cond_false]
    rw [if_pos (by push_cast at h; simpa using h)]
  | succ fuel ih =>
    intro t nf att times h
    by_cases hc : doneAt timeout cancelAt ≤ nf
    · refine ⟨times.reverse, ?_⟩
      rw [pollLoop]
      simp only [Bool.cond_false]
      rw [if_pos hc]
    · push_neg at hc
      obtain ⟨ts, hts⟩ := ih nf (nf + interval) (att + 1) (nf :: times)
        (by push_cast at h ⊢; linarith)
      refine ⟨ts, ?_⟩
      rw [pollLoop]
      simp only [Bool.cond_false]
      rw [if_neg (by push_neg; exact hc)]
      simp only [hscript att]
      exact hts

/-- Success-response and registration fixtures for the polling
claims. -/
def rC4 : TokenResponse :=
  { AccessToken := "c4-access", RefreshToken := "c4-refresh", ExpiresIn := 3600 }

/-- Registration fixture echoed into tokens for the polling claims. -/
def regW : RegisterResponse := { ClientId := "client-id", ClientSecret := "client-secret" }

/-- C3: with a provider stub answering "authorization pending" twice
and succeeding on the third call, the flow makes exactly three poll
attempts at times `interval, 2*interval, 3*interval` (two inter-attempt
waits of one server-specified interval each) and returns a token whose
fields come from the success response and the registration; and in
general `n` pending responses followed by a success never terminate the
loop early — the success is reached on attempt `n + 1`, for every `n`
within the timeout. -/
theorem c3_pending_then_success_three_attempts :
    (∀ (interval : Int) (r : TokenResponse) (now0 : GoTime) (reg : RegisterResponse)
       (ssoRegion startURL : String),
      0 < interval → 3 * interval < 600 →
      performDeviceAuthorization now0 reg ssoRegion startURL interval none none
          (pendingThenSuccess 2 r) 3
        = (.token
            { AccessToken := r.AccessToken
              ExpiresAt := { sec := now0.sec + 3 * interval + r.ExpiresIn, offset := now0.offset }
              RefreshToken := r.RefreshToken
              ClientID := reg.ClientId
              ClientSecret := reg.ClientSecret
              RegistrationTime := { sec := now0.sec + 3 * interval, offset := now0.offset }
              Region := ssoRegion
              StartURL := startURL },
           3 * interval, [interval, 2 * interval, 3 * interval]))
    ∧ (∀ (interval timeout : Int) (r : TokenResponse) (n fuel : Nat),
        0 < interval → n < fuel → (n : Int) * interval + interval < timeout →
        performPoll interval timeout none (pendingThenSuccess n r) fuel
          = (.success r, interval + (n : Int) * interval,
             (List.range (n + 1)).map (fun k : Nat => interval + (k : Int) * interval))) := by
  have key : ∀ (interval timeout : Int) (r : TokenResponse) (n fuel : Nat),
      0 < interval → n < fuel → (n : Int) * interval + interval < timeout →
      performPoll interval timeout none (pendingThenSuccess n r) fuel
        = (.success r, interval + (n : Int) * interval,
           (List.range (n + 1)).map (fun k : Nat => interval + (k : Int) * interval)) := by
    intro interval timeout r n fuel hi hfuel htmo
    unfold performPoll
    rw [pollLoop_pending_then_success interval timeout r hi n fuel 0 0 interval [] _
        hfuel (fun k hk => by simp [pendingThenSuccess, hk])
        (by simp [pendingThenSuccess]) (by linarith)]
    simp
  refine ⟨?_, key⟩
  intro interval r now0 reg ssoRegion startURL hi h600
  have h2 := key interval 600 r 2 3 hi (by omega) (by push_cast; linarith)
  unfold performDeviceAuthorization
  simp only [effectiveTimeout]
  rw [h2]
  simp only [tokenFromResponse, List.range_succ, List.range_zero, List.map_append,
    List.map_cons, List.map_nil, List.nil_append, Prod.mk.injEq,
    DeviceAuthResult.token.injEq, Token.mk.injEq, GoTime.mk.injEq,
    List.cons_append, List.cons.injEq]
  repeat' apply And.intro
  all_goals first
    | trivial
    | (push_cast; ring)

/-- Witness for `c3_pending_then_success_three_attempts` at interval
5 s: three attempts at 5, 10, 15 s, success token from the response. -/
theorem c3_pending_then_success_witness :
    performDeviceAuthorization ⟨1700000000, 0⟩ regW "us-east-1"
        "https://test.awsapps.com/start" 5 none none (pendingThenSuccess 2 rC4) 3
      = (.token
          { AccessToken := "c4-access"
            ExpiresAt := { sec := 1700003615, offset := 0 }
            RefreshToken := "c4-refresh"
            ClientID := "client-id"
            ClientSecret := "client-secret"
            RegistrationTime := { sec := 1700000015, offset := 0 }
            Region := "us-east-1"
            StartURL := "https://test.awsapps.com/start" },
         15, [5, 10, 15]) := by
  have h := c3_pending_then_success_three_attempts.1 5 rC4 ⟨1700000000, 0⟩ regW
    "us-east-1" "https://test.awsapps.com/start" (by norm_num) (by norm_num)
  norm_num [rC4, regW] at h
  exact h

/-- C4: the claim is false on the code.  During the "slow down" sleep
the ticker keeps running and its already-fired tick sits in the
one-slot channel, so the `select` right after the sleep consumes it
immediately: with interval 5 s, a stub answering "slow down" then
success polls at 5 s and 10 s — exactly the same attempt times as the
no-slow-down (pending-then-success) run, with no extra interval of
waiting before the next attempt. -/
theorem c4_slow_down_adds_no_extra_wait :
    performPoll 5 600 none (slowDownThenSuccess rC4) 4
        = (.success rC4, 10, [5, 10])
    ∧ performPoll 5 600 none (pendingThenSuccess 1 rC4) 4
        = (.success rC4, 10, [5, 10])
    ∧ performPoll 5 600 none (slowDownThenSuccess rC4) 4
        = performPoll 5 600 none (pendingThenSuccess 1 rC4) 4 :=
  ⟨by decide, by decide, by decide⟩

/-- C5: the polling state is bounded by 600 s (10 min) by default,
shortened to a sooner caller deadline; a never-succeeding provider
makes the flow end at exactly the effective deadline with the
timed-out result, which is a different value than the one produced by
caller-initiated cancellation. -/
theorem c5_polling_timeout_bound :
    effectiveTimeout none = 600
    ∧ (∀ d : Int, 0 < d → d < 600 → effectiveTimeout (some d) = d)
    ∧ (∀ (interval d : Int) (now0 : GoTime) (reg : RegisterResponse)
         (ssoRegion startURL : String),
        0 < interval → 0 < d → d < 600 →
        ∃ ts, performDeviceAuthorization now0 reg ssoRegion startURL interval (some d) none
            alwaysPending (d.toNat + 1)
          = (.timedOut, d, ts))
    ∧ (∀ (interval timeout c : Int),
        0 < interval → 0 < c → c < timeout →
        ∃ ts, performPoll interval timeout (some c) alwaysPending (c.toNat + 1)
          = (.cancelled, c, ts))
    ∧ DeviceAuthResult.timedOut ≠ DeviceAuthResult.cancelled := by
  refine ⟨rfl, ?_, ?_, ?_, by simp⟩
  · intro d hd hd600
    simp only [effectiveTimeout]
    rw [if_pos hd600]
  · intro interval d now0 reg ssoRegion startURL hi hd hd600
    have hmul : d * 1 ≤ d * interval := mul_le_mul_of_nonneg_left (by omega) hd.le
    obtain ⟨ts, hts⟩ := pollLoop_all_pending_done interval d none alwaysPending
      (fun _ => rfl) hi d.toNat 0 interval 0 []
      (by
        simp only [doneAt]
        rw [Int.toNat_of_nonneg hd.le]
        linarith)
    refine ⟨ts, ?_⟩
    unfold performDeviceAuthorization performPoll
    simp only [effectiveTimeout]
    rw [if_pos hd600, hts]
    simp [doneAt, doneOutcome]
  · intro interval timeout c hi hc hct
    have hmul : c * 1 ≤ c * interval := mul_le_mul_of_nonneg_left (by omega) hc.le
    have hdone : doneAt timeout (some c) = c := by
      simp only [doneAt]
      omega
    obtain ⟨ts, hts⟩ := pollLoop_all_pending_done interval timeout (some c) alwaysPending
      (fun _ => rfl) hi c.toNat 0 interval 0 []
      (by
        rw [hdone, Int.toNat_of_nonneg hc.le]
        linarith)
    refine ⟨ts, ?_⟩
    unfold performPoll
    rw [hts, hdone]
    simp only [doneOutcome]
    rw [if_pos hct]

/-- Witness for `c5_polling_timeout_bound`: a 60 s caller deadline with
interval 7 s ends the flow at 60 s with the timed-out result. -/
theorem c5_polling_timeout_bound_witness :
    ∃ ts, performDeviceAuthorization ⟨1700000000, 0⟩ regW "us-east-1"
        "https://test.awsapps.com/start" 7 (some 60) none alwaysPending 61
      = (.timedOut, 60, ts) :=
  c5_polling_timeout_bound.2.2.1 7 60 ⟨1700000000, 0⟩ regW "us-east-1"
    "https://test.awsapps.com/start" (by norm_num) (by norm_num) (by norm_num)

/-! Fixtures for the token-cache claims.  `tokC1` has an `ExpiresAt`
whose location is one hour east of UTC (offset 3600 s), as produced by
`time.Now().Add(...)` on a host in such a zone; its instant is
1000000 s after the epoch (wall clock 1003600 = 1970-01-12T14:46:40). -/

def tokC1 : Token :=
  { AccessToken := "tok-c1"
    ExpiresAt := { sec := 1000000, offset := 3600 }
    RefreshToken := ""
    ClientID := ""
    ClientSecret := ""
    RegistrationTime := { sec := 0, offset := 0 }
    Region := "us-east-1"
    StartURL := "https://test.awsapps.com/start" }

/-- Read-back of `tokC1`: the expiry instant has silently moved one
hour later, to the wall-clock value reinterpreted as UTC. -/
def tokC1Read : Token :=
  { AccessToken := "tok-c1"
    ExpiresAt := { sec := 1003600, offset := 0 }
    RefreshToken := ""
    ClientID := ""
    ClientSecret := ""
    RegistrationTime := { sec := 0, offset := 0 }
    Region := "us-east-1"
    StartURL := "https://test.awsapps.com/start" }

/-- Token expiring 10 minutes after the fixture instant 1700000000 (in
UTC, so the write path serializes its instant faithfully). -/
def tokFut : Token :=
  { AccessToken := "tok-fut"
    ExpiresAt := { sec := 1700000600, offset := 0 }
    RefreshToken := ""
    ClientID := ""
    ClientSecret := ""
    RegistrationTime := { sec := 0, offset := 0 }
    Region := "us-east-1"
    StartURL := "https://test.awsapps.com/start" }

/-- Read-back of `tokFut` written at instant 1700000000. -/
def tokFutRead : Token :=
  { AccessToken := "tok-fut"
    ExpiresAt := { sec := 1700000600, offset := 0 }
    RefreshToken := ""
    ClientID := ""
    ClientSecret := ""
    RegistrationTime := { sec := 1700000000, offset := 0 }
    Region := "us-east-1"
    StartURL := "https://test.awsapps.com/start" }

/-- Token that expired 10 minutes before the fixture instant. -/
def tokPast : Token :=
  { AccessToken := "tok-past"
    ExpiresAt := { sec := 1699999400, offset := 0 }
    RefreshToken := ""
    ClientID := ""
    ClientSecret := ""
    RegistrationTime := { sec := 0, offset := 0 }
    Region := "us-east-1"
    StartURL := "https://test.awsapps.com/start" }

/-- C1: the round-trip law fails on the code as soon as the written
token's `ExpiresAt` is not in UTC.  `PutCachedToken` runs
`token.ExpiresAt.Format("2006-01-02T15:04:05Z")` without converting to
UTC first; in that layout the `Z` is a literal, so the file stores the
local wall-clock reading `14:46:40` with a `Z` (second conjunct shows
the true UTC serialization of the same instant is `13:46:40Z`), and the
read path reinterprets it as UTC: the access token and start-URL
round-trip, but the expiry instant comes back shifted by exactly the
zone offset (3600 s), violating the claimed equality at seconds
precision. -/
theorem c1_token_roundtrip_shifts_non_utc_expiry :
    (PutCachedToken ⟨0, 0⟩ "https://test.awsapps.com/start" tokC1).ExpiresAt
        = "1970-01-12T14:46:40Z"
    ∧ formatTimestampZ { sec := tokC1.ExpiresAt.sec, offset := 0 } = "1970-01-12T13:46:40Z"
    ∧ GetCachedToken ⟨0, 0⟩
        (some (PutCachedToken ⟨0, 0⟩ "https://test.awsapps.com/start" tokC1))
        = .ok (some tokC1Read)
    ∧ tokC1Read.AccessToken = tokC1.AccessToken
    ∧ tokC1Read.StartURL = tokC1.StartURL
    ∧ tokC1Read.ExpiresAt.sec = tokC1.ExpiresAt.sec + tokC1.ExpiresAt.offset
    ∧ tokC1Read.ExpiresAt.sec ≠ tokC1.ExpiresAt.sec := by
  refine ⟨by decide, by decide, rfl, rfl, rfl, by decide, by decide⟩

/-- C2: on the external-compatible read path, `GetCachedToken` returns
absent exactly when the current time is after (expiry − 5 minutes); a
token written with expiry 10 minutes in the future is returned by an
immediate read, and one with expiry 10 minutes in the past reads back
as absent. -/
theorem c2_get_token_expiry_buffer :
    (∀ (now : GoTime) (awsToken : AWSCLIToken) (e : GoTime),
        parseTimestampZ awsToken.ExpiresAt = some e →
        (GetCachedToken now (some awsToken) = .ok none ↔ now.sec > e.sec - 5 * 60))
    ∧ GetCachedToken ⟨1700000000, 0⟩
        (some (PutCachedToken ⟨1700000000, 0⟩ "https://test.awsapps.com/start" tokFut))
        = .ok (some tokFutRead)
    ∧ GetCachedToken ⟨1700000000, 0⟩
        (some (PutCachedToken ⟨1700000000, 0⟩ "https://test.awsapps.com/start" tokPast))
        = .ok none := by
  refine ⟨?_, rfl, rfl⟩
  intro now awsToken e he
  simp only [GetCachedToken, he]
  split
  · simpa
  · simp_all

/-- Witness for `c2_get_token_expiry_buffer`: instantiates the general
buffer law at the concrete expired fixture. -/
theorem c2_get_token_expiry_buffer_witness :
    GetCachedToken ⟨1700000000, 0⟩
      (some (PutCachedToken ⟨1700000000, 0⟩ "https://test.awsapps.com/start" tokPast))
      = .ok none :=
  (c2_get_token_expiry_buffer.1 ⟨1700000000, 0⟩
      (PutCachedToken ⟨1700000000, 0⟩ "https://test.awsapps.com/start" tokPast)
      ⟨1699999400, 0⟩ (by decide)).mpr (by decide)

/-- C7: credentials stored through `PutCachedCredentials` under the
composite key read back unchanged while the current time is not past
the expiration, and read back as absent once the current time is after
the expiration — no buffer is applied. -/
theorem c7_credential_cache_roundtrip_and_expiry :
    ∀ (store : MemoryCache) (startURL accountID roleName : String)
      (creds : CachedCredentials) (now : GoTime),
      PutCachedCredentials (some store)
          (generateCredentialCacheKey startURL accountID roleName) creds
        = .ok (some (store.put (generateCredentialCacheKey startURL accountID roleName) creds))
      ∧ (now.sec ≤ creds.Expiration.sec →
          GetCachedCredentials now
              (some (store.put (generateCredentialCacheKey startURL accountID roleName) creds))
              (generateCredentialCacheKey startURL accountID roleName)
            = some creds)
      ∧ (now.sec > creds.Expiration.sec →
          GetCachedCredentials now
              (some (store.put (generateCredentialCacheKey startURL accountID roleName) creds))
              (generateCredentialCacheKey startURL accountID roleName)
            = none) := by
  intro store startURL accountID roleName creds now
  refine ⟨rfl, ?_, ?_⟩
  · intro h
    simp only [GetCachedCredentials, Option.getD_some, MemoryCache.get_put]
    rw [if_neg (by omega)]
  · intro h
    simp only [GetCachedCredentials, Option.getD_some, MemoryCache.get_put]
    rw [if_pos h]

/-- Witness for `c7_credential_cache_roundtrip_and_expiry`: concrete
store/now with expiration one hour after now (returned unchanged) and
with the same entry read one hour after expiration (absent). -/
theorem c7_credential_cache_roundtrip_and_expiry_witness :
    GetCachedCredentials ⟨1700000000, 0⟩
        (some (MemoryCache.put []
          (generateCredentialCacheKey "https://test.awsapps.com/start" "123456789012" "MyRole")
          { AccessKeyID := "AKIA", SecretAccessKey := "S", SessionToken := "T",
            Expiration := ⟨1700003600, 0⟩ }))
        (generateCredentialCacheKey "https://test.awsapps.com/start" "123456789012" "MyRole")
      = some { AccessKeyID := "AKIA", SecretAccessKey := "S", SessionToken := "T",
               Expiration := ⟨1700003600, 0⟩ } :=
  ((c7_credential_cache_roundtrip_and_expiry []
      "https://test.awsapps.com/start" "123456789012" "MyRole"
      { AccessKeyID := "AKIA", SecretAccessKey := "S", SessionToken := "T",
        Expiration := ⟨1700003600, 0⟩ } ⟨1700000000, 0⟩).2.1 (by decide))

set_option maxRecDepth 20000 in
/-- C8: the token cache file path is `<home>/.aws/sso/cache/<lowercase
hex SHA-1 of the start URL>.json`, computed from the start URL alone
(the source function takes no cache argument), and for the fixture
start URL the hash evaluates to the expected fixed value, so the
concrete path ends in `bfe9e37c85cc299e34d8c03b631672483f78cd01.json`. -/
theorem c8_sso_cache_file_path :
    sha1Hex (asciiBytes "https://test.awsapps.com/start")
        = "bfe9e37c85cc299e34d8c03b631672483f78cd01"
    ∧ (∀ homeDir : String,
        GetSSOCacheFilePath homeDir "https://test.awsapps.com/start"
          = homeDir ++ "/.aws/sso/cache/"
              ++ "bfe9e37c85cc299e34d8c03b631672483f78cd01" ++ ".json")
    ∧ GetSSOCacheFilePath "/home/user" "https://test.awsapps.com/start"
        = "/home/user/.aws/sso/cache/bfe9e37c85cc299e34d8c03b631672483f78cd01.json" := by
  have h : sha1Hex (asciiBytes "https://test.awsapps.com/start")
      = "bfe9e37c85cc299e34d8c03b631672483f78cd01" := by decide
  refine ⟨h, fun homeDir => ?_, by decide⟩
  unfold GetSSOCacheFilePath
  rw [h]

/-- C10: with a nil cache the Go code builds a fresh empty in-memory
store inside each call, so a `Put` succeeds without any observable
effect and a subsequent `Get` with the same key is always absent. -/
theorem c10_nil_cache_never_retains :
    ∀ (key : String) (creds : CachedCredentials) (now : GoTime),
      PutCachedCredentials none key creds = .ok none
      ∧ GetCachedCredentials now none key = none :=
  fun _ _ _ => ⟨rfl, rfl⟩

/-- C6: cache I/O failures are best-effort.  A failing token-cache
write changes nothing about `Login`'s result; on the miss path with a
successful device flow and a failing write, `Login` still returns the
fresh token; a failing token-cache read behaves exactly like a miss;
and `Retrieve` with a failing credential-cache write still returns the
freshly exchanged credentials, identically to a successful write. -/
theorem c6_cache_write_failure_nonfatal_read_failure_is_miss :
    (∀ (fr : Bool) (w : Int) (now : GoTime) (ct : Except String (Option Token))
       (tok : Token) (e : String),
        Login fr w now ct (.ok tok) (.error e) = Login fr w now ct (.ok tok) (.ok ()))
    ∧ (∀ (w : Int) (now : GoTime) (tok : Token) (er ew : String),
        Login false w now (.error er) (.ok tok) (.error ew)
          = .ok { token := tok, expiresAt := tok.ExpiresAt })
    ∧ (∀ (fr : Bool) (w : Int) (now : GoTime) (e : String)
       (da : Except String Token) (pr : Except String Unit),
        Login fr w now (.error e) da pr = Login fr w now (.ok none) da pr)
    ∧ (∀ (tok : Token) (creds : CachedCredentials) (e : String),
        Retrieve true (.ok none) (.ok (some tok)) (.ok ()) (.ok creds) (.error e)
          = Retrieve true (.ok none) (.ok (some tok)) (.ok ()) (.ok creds) (.ok ())
        ∧ (Retrieve true (.ok none) (.ok (some tok)) (.ok ()) (.ok creds) (.error e)).1
          = .ok { AccessKeyID := creds.AccessKeyID, SecretAccessKey := creds.SecretAccessKey,
                  SessionToken := creds.SessionToken, CanExpire := true,
                  Expires := creds.Expiration, Source := "SSO" }) := by
  refine ⟨?_, ?_, ?_, ?_⟩
  · intro fr w now ct tok e
    unfold Login
    rfl
  · intro w now tok er ew
    rfl
  · intro fr w now e da pr
    unfold Login
    cases fr <;> rfl
  · intro tok creds e
    exact ⟨rfl, rfl⟩

/-- Witness for `c6_cache_write_failure_nonfatal_read_failure_is_miss`
at concrete arguments: a failing write after a fresh device-flow token
still yields that token. -/
theorem c6_cache_write_failure_nonfatal_witness :
    Login false 0 ⟨1700000000, 0⟩ (.error "disk error") (.ok tokFut) (.error "readonly fs")
      = .ok { token := tokFut, expiresAt := tokFut.ExpiresAt } :=
  c6_cache_write_failure_nonfatal_read_failure_is_miss.2.1 0 ⟨1700000000, 0⟩ tokFut
    "disk error" "readonly fs"

/-- C9: when the credential cache yields nothing and the token cache
has no valid token (miss or read error), `Retrieve` surfaces the
distinct `authenticationNeeded` error, and no execution of `Retrieve`
ever performs a login; `getTokenForOperation` without the interactive
login flag surfaces the very same `authenticationNeeded` error on a
token-cache miss or read error. -/
theorem c9_authentication_needed_without_implicit_login :
    (∀ (en : Bool) (cc : Except String (Option CachedCredentials))
       (ctk : Except String (Option Token)) (lc : Except String Unit)
       (rc : Except String CachedCredentials) (pr : Except String Unit),
        RetrieveAction.login ∉ (Retrieve en cc ctk lc rc pr).2)
    ∧ (∀ (en : Bool) (cc : Except String (Option CachedCredentials))
       (ctk : Except String (Option Token)) (lc : Except String Unit)
       (rc : Except String CachedCredentials) (pr : Except String Unit),
        (en = true → cc = .ok none ∨ ∃ e, cc = .error e) →
        (ctk = .ok none ∨ ∃ e, ctk = .error e) →
        (Retrieve en cc ctk lc rc pr).1 = .error .authenticationNeeded)
    ∧ (∀ (ctk : Except String (Option Token)) (lr : Except String LoginOutput),
        (ctk = .ok none ∨ ∃ e, ctk = .error e) →
        getTokenForOperation false ctk lr = .error .authenticationNeeded) := by
  refine ⟨?_, ?_, ?_⟩
  · intro en cc ctk lc rc pr
    unfold Retrieve
    cases en <;> rcases cc with ec | _ | c <;> rcases ctk with et | _ | t <;>
      rcases lc with el | _ <;> rcases rc with er | r <;> rcases pr with ep | _ <;> simp
  · intro en cc ctk lc rc pr hcc hctk
    unfold Retrieve
    cases en
    · rcases hctk with h | ⟨e, h⟩ <;> subst h <;> rfl
    · rcases hcc rfl with h | ⟨e, h⟩ <;> subst h <;>
        rcases hctk with h2 | ⟨e2, h2⟩ <;> subst h2 <;> rfl
  · intro ctk lr hctk
    rcases hctk with h | ⟨e, h⟩ <;> subst h <;> rfl

/-- Witness for `c9_authentication_needed_without_implicit_login` at
concrete arguments: a cold credential cache and token cache produce
`authenticationNeeded` from both entry points. -/
theorem c9_authentication_needed_witness :
    (Retrieve true (.ok none) (.ok none) (.ok ()) (.error "unused") (.ok ())).1
        = .error .authenticationNeeded
    ∧ getTokenForOperation false (.ok none) (.error "unused")
        = .error .authenticationNeeded :=
  ⟨c9_authentication_needed_without_implicit_login.2.1 true (.ok none) (.ok none)
      (.ok ()) (.error "unused") (.ok ()) (fun _ => Or.inl rfl) (Or.inl rfl),
   c9_authentication_needed_without_implicit_login.2.2 (.ok none) (.error "unused")
      (Or.inl rfl)⟩

end AwsSsoLib
